import Mathlib

/-!
Verification of the task-tracking backend (tasks, execution results, chat
messages). The data model follows the drizzle schema (`db/schema.ts`), the
validated input shapes follow the zod schemas (`schema.ts`), and each operation
is a shallow embedding of the corresponding handler in `src/handlers/`.
Timestamps are modelled as natural numbers; every operation that generates a
timestamp takes the current clock value `now` as an explicit argument. The
persisted store is threaded through every operation, so a handler has type
`... → Store → Result × Store` (with `Except String` for handlers that throw).
-/

namespace AgentChat

/-- Enum `task_status`: pending | running | completed | failed. -/
inductive TaskStatus where
  | pending
  | running
  | completed
  | failed
deriving DecidableEq, Repr

/-- Enum `execution_status`: success | error | partial
(the last value is named `part` here). -/
inductive ExecStatus where
  | success
  | error
  | part
deriving DecidableEq, Repr

/-- Enum `content_type`: text | code | json | markdown. -/
inductive ContentType where
  | text
  | code
  | json
  | markdown
deriving DecidableEq, Repr

/-- Enum `message_role`: user | agent | system. -/
inductive MessageRole where
  | user
  | agent
  | system
deriving DecidableEq, Repr

/-- A row of the `tasks` table. -/
structure Task where
  id : Int
  title : String
  description : Option String
  status : TaskStatus
  agent_type : String
  created_at : Nat
  updated_at : Nat
deriving DecidableEq, Repr

/-- A row of the `execution_results` table. -/
structure ExecutionResult where
  id : Int
  task_id : Int
  content : String
  content_type : ContentType
  execution_time_ms : Int
  status : ExecStatus
  error_message : Option String
  created_at : Nat
deriving DecidableEq, Repr

/-- A row of the `chat_messages` table. -/
structure ChatMessage where
  id : Int
  task_id : Int
  role : MessageRole
  content : String
  agent_name : Option String
  timestamp : Nat
deriving DecidableEq, Repr

/-- The persisted state: the three tables plus the serial-id counters. -/
structure Store where
  tasks : List Task
  executionResults : List ExecutionResult
  chatMessages : List ChatMessage
  nextTaskId : Int
  nextExecutionResultId : Int
  nextChatMessageId : Int
deriving DecidableEq, Repr

/-- Fresh database: empty tables; serial columns start at 1. -/
def emptyStore : Store := ⟨[], [], [], 1, 1, 1⟩

/-- Validated `createTaskInputSchema` output (no status field: the zod object
strips unknown keys). -/
structure CreateTaskInput where
  title : String
  description : Option String
  agent_type : String
deriving DecidableEq, Repr

/-- A raw createTask request body. It may carry a `status` key; the zod schema
has no such key, so parsing strips it. -/
structure CreateTaskRequest where
  title : String
  description : Option String
  agent_type : String
  status : Option TaskStatus
deriving DecidableEq, Repr

/-- Validation by `createTaskInputSchema`: title and agent_type must have length at least 1;
any supplied status key is stripped (zod objects drop unknown keys). -/
def parseCreateTaskInput (r : CreateTaskRequest) : Except String CreateTaskInput :=
  if r.title.length < 1 then .error "Title is required"
  else if r.agent_type.length < 1 then .error "Agent type is required"
  else .ok ⟨r.title, r.description, r.agent_type⟩

/-- Validated `updateTaskInputSchema` output. Outer `Option` = field present in
the request; for `description` the inner `Option` is the explicit null. Note
the schema puts no minimum length on `title` or `agent_type`. -/
structure UpdateTaskInput where
  id : Int
  title : Option String
  description : Option (Option String)
  status : Option TaskStatus
  agent_type : Option String
deriving DecidableEq, Repr

/-- Validated `createExecutionResultInputSchema` output. -/
structure CreateExecutionResultInput where
  task_id : Int
  content : String
  content_type : ContentType
  execution_time_ms : Int
  status : ExecStatus
  error_message : Option String
deriving DecidableEq, Repr

/-- Validated `createChatMessageInputSchema` output. -/
structure CreateChatMessageInput where
  task_id : Int
  role : MessageRole
  content : String
  agent_name : Option String
deriving DecidableEq, Repr

/-- Validated `getTasksQuerySchema` output: defaults already applied. -/
structure GetTasksQuery where
  status : Option TaskStatus
  agent_type : Option String
  limit : Nat
  offset : Nat
deriving DecidableEq, Repr

/-- Validated `getExecutionResultsQuerySchema` output. -/
structure GetExecutionResultsQuery where
  task_id : Int
deriving DecidableEq, Repr

/-- Validated `getChatMessagesQuerySchema` output: defaults already applied. -/
structure GetChatMessagesQuery where
  task_id : Int
  limit : Nat
  offset : Nat
deriving DecidableEq, Repr

/-- Comparison for `ORDER BY created_at DESC` on tasks. -/
def createdDesc (a b : Task) : Prop := b.created_at ≤ a.created_at

instance : DecidableRel createdDesc :=
  fun a b => inferInstanceAs (Decidable (b.created_at ≤ a.created_at))

instance : IsTotal Task createdDesc := ⟨fun a b => le_total b.created_at a.created_at⟩

instance : IsTrans Task createdDesc := ⟨fun _ _ _ h1 h2 => le_trans h2 h1⟩

/-- Comparison for `ORDER BY created_at DESC` on execution results. -/
def execCreatedDesc (a b : ExecutionResult) : Prop := b.created_at ≤ a.created_at

instance : DecidableRel execCreatedDesc :=
  fun a b => inferInstanceAs (Decidable (b.created_at ≤ a.created_at))

instance : IsTotal ExecutionResult execCreatedDesc :=
  ⟨fun a b => le_total b.created_at a.created_at⟩

instance : IsTrans ExecutionResult execCreatedDesc := ⟨fun _ _ _ h1 h2 => le_trans h2 h1⟩

/-- Comparison for `ORDER BY timestamp ASC` on chat messages. -/
def tsAsc (a b : ChatMessage) : Prop := a.timestamp ≤ b.timestamp

instance : DecidableRel tsAsc :=
  fun a b => inferInstanceAs (Decidable (a.timestamp ≤ b.timestamp))

instance : IsTotal ChatMessage tsAsc := ⟨fun a b => le_total a.timestamp b.timestamp⟩

instance : IsTrans ChatMessage tsAsc := ⟨fun _ _ _ h1 h2 => le_trans h1 h2⟩

/-- Handler `createTask` (`handlers/create_task.ts`): inserts with status
forced to `'pending'`; both timestamp columns default to the same `now`. -/
def createTask (input : CreateTaskInput) (now : Nat) (s : Store) : Task × Store :=
  let t : Task :=
    { id := s.nextTaskId
      title := input.title
      description := input.description
      status := .pending
      agent_type := input.agent_type
      created_at := now
      updated_at := now }
  (t, { s with tasks := s.tasks ++ [t], nextTaskId := s.nextTaskId + 1 })

/-- The `conditions` array built by `getTasks` (`handlers/get_tasks.ts`).
`if (query.status)` and `if (query.agent_type)` test JS truthiness: a present
status enum value is always a non-empty string, but a present `agent_type`
equal to the empty string is falsy and adds no condition. -/
def taskConditions (q : GetTasksQuery) : List (Task → Bool) :=
  (match q.status with
   | some st => [fun t => t.status == st]
   | none => []) ++
  (match q.agent_type with
   | some a => if a == "" then [] else [fun t => t.agent_type == a]
   | none => [])

/-- Handler `getTasks`: filter by the conditions (the code combines them with
`and(...)`, i.e. every condition must hold), order by `created_at DESC`, then
`OFFSET` and `LIMIT`. With no conditions the `where` clause is skipped. -/
def getTasks (q : GetTasksQuery) (s : Store) : List Task × Store :=
  let conditions := taskConditions q
  let rows :=
    if conditions.isEmpty then
      ((List.insertionSort createdDesc s.tasks).drop q.offset).take q.limit
    else
      ((List.insertionSort createdDesc
          (s.tasks.filter (fun t => conditions.all (fun c => c t)))).drop q.offset).take q.limit
  (rows, s)

/-- Handler `getTaskById`: `SELECT ... WHERE id = ?`, returning the first row
or null. -/
def getTaskById (id : Int) (s : Store) : Option Task × Store :=
  match s.tasks.filter (fun t => t.id == id) with
  | [] => (none, s)
  | t :: _ => (some t, s)

/-- The `updateData` application of `updateTask`: a field key is written only
when it is present on the input (`!== undefined`); a present null description
is written as null; `updated_at` is always refreshed. -/
def applyTaskUpdate (input : UpdateTaskInput) (now : Nat) (t : Task) : Task :=
  { t with
    title := input.title.getD t.title
    description := input.description.getD t.description
    status := input.status.getD t.status
    agent_type := input.agent_type.getD t.agent_type
    updated_at := now }

/-- Handler `updateTask`: `UPDATE ... WHERE id = ? RETURNING *`; returns the
first returned row, or null when no row matched. -/
def updateTask (input : UpdateTaskInput) (now : Nat) (s : Store) : Option Task × Store :=
  let returned := (s.tasks.filter (fun t => t.id == input.id)).map (applyTaskUpdate input now)
  let newTasks := s.tasks.map (fun t => if t.id == input.id then applyTaskUpdate input now t else t)
  (returned.head?, { s with tasks := newTasks })

/-- Handler `deleteTask`: `DELETE FROM tasks WHERE id = ?`; the
`onDelete: 'cascade'` foreign keys of `execution_results.task_id` and
`chat_messages.task_id` remove the children of every deleted row; returns
whether `rowCount > 0`. -/
def deleteTask (id : Int) (s : Store) : Bool × Store :=
  if s.tasks.any (fun t => t.id == id) then
    (true,
     { s with
       tasks := s.tasks.filter (fun t => !(t.id == id))
       executionResults := s.executionResults.filter (fun r => !(r.task_id == id))
       chatMessages := s.chatMessages.filter (fun m => !(m.task_id == id)) })
  else
    (false, s)

/-- Handler `createExecutionResult`: checks the referenced task exists, throws
`Task with id N does not exist` otherwise, then inserts and returns the row. -/
def createExecutionResult (input : CreateExecutionResultInput) (now : Nat) (s : Store) :
    Except String ExecutionResult × Store :=
  if (s.tasks.filter (fun t => t.id == input.task_id)).isEmpty then
    (.error ("Task with id " ++ toString input.task_id ++ " does not exist"), s)
  else
    let r : ExecutionResult :=
      { id := s.nextExecutionResultId
        task_id := input.task_id
        content := input.content
        content_type := input.content_type
        execution_time_ms := input.execution_time_ms
        status := input.status
        error_message := input.error_message
        created_at := now }
    (.ok r,
     { s with
       executionResults := s.executionResults ++ [r]
       nextExecutionResultId := s.nextExecutionResultId + 1 })

/-- Handler `createChatMessage`: checks the referenced task exists, throws
`Task with id N not found` otherwise, then inserts and returns the row. -/
def createChatMessage (input : CreateChatMessageInput) (now : Nat) (s : Store) :
    Except String ChatMessage × Store :=
  if (s.tasks.filter (fun t => t.id == input.task_id)).isEmpty then
    (.error ("Task with id " ++ toString input.task_id ++ " not found"), s)
  else
    let m : ChatMessage :=
      { id := s.nextChatMessageId
        task_id := input.task_id
        role := input.role
        content := input.content
        agent_name := input.agent_name
        timestamp := now }
    (.ok m,
     { s with
       chatMessages := s.chatMessages ++ [m]
       nextChatMessageId := s.nextChatMessageId + 1 })

/-- Handler `getExecutionResults`: `WHERE task_id = ? ORDER BY created_at DESC`. -/
def getExecutionResults (q : GetExecutionResultsQuery) (s : Store) :
    List ExecutionResult × Store :=
  (List.insertionSort execCreatedDesc
     (s.executionResults.filter (fun r => r.task_id == q.task_id)), s)

/-- Handler `getChatMessages`: `WHERE task_id = ? ORDER BY timestamp ASC`,
then `OFFSET` and `LIMIT`. -/
def getChatMessages (q : GetChatMessagesQuery) (s : Store) : List ChatMessage × Store :=
  (((List.insertionSort tsAsc
       (s.chatMessages.filter (fun m => m.task_id == q.task_id))).drop q.offset).take q.limit,
   s)

end AgentChat

namespace AgentChat

/-- The spec reading of the getTasks filters: a supplied status and a supplied
agent_type must both match (AND), with no exception for the empty string. -/
def matchesSpecFilters (q : GetTasksQuery) (t : Task) : Bool :=
  (match q.status with | some st => t.status == st | none => true) &&
  (match q.agent_type with | some a => t.agent_type == a | none => true)

/-- The filter the handler actually applies: a supplied agent_type equal to
the empty string is falsy in JS, so its condition is skipped. -/
def matchesEffectiveFilters (q : GetTasksQuery) (t : Task) : Bool :=
  (match q.status with | some st => t.status == st | none => true) &&
  (match q.agent_type with | some a => (a == "") || (t.agent_type == a) | none => true)

/-- One write request against the store (reads never change it). -/
inductive Op where
  | createT (input : CreateTaskInput) (now : Nat)
  | updateT (input : UpdateTaskInput) (now : Nat)
  | deleteT (id : Int)
  | createER (input : CreateExecutionResultInput) (now : Nat)
  | createCM (input : CreateChatMessageInput) (now : Nat)
deriving DecidableEq, Repr

/-- Effect of one write request on the store. -/
def applyOp (s : Store) : Op → Store
  | .createT i n => (createTask i n s).2
  | .updateT i n => (updateTask i n s).2
  | .deleteT id => (deleteTask id s).2
  | .createER i n => (createExecutionResult i n s).2
  | .createCM i n => (createChatMessage i n s).2

/-- Effect of a sequence of write requests. -/
def applyOps (ops : List Op) (s : Store) : Store := ops.foldl applyOp s

/-- Whether the request body passes its zod input schema.
`createTaskInputSchema` demands length-1 title and agent_type;
`updateTaskInputSchema` puts no minimum length on any field;
`createExecutionResultInputSchema` demands a non-negative integer duration;
`createChatMessageInputSchema` demands length-1 content. -/
def opValidated : Op → Bool
  | .createT i _ => decide (1 ≤ i.title.length) && decide (1 ≤ i.agent_type.length)
  | .updateT _ _ => true
  | .deleteT _ => true
  | .createER i _ => decide (0 ≤ i.execution_time_ms)
  | .createCM i _ => decide (1 ≤ i.content.length)

def optNonEmpty : Option String → Bool
  | some v => decide (1 ≤ v.length)
  | none => true

/-- An update request that does not supply an empty title or agent_type. -/
def opKeepsNonEmpty : Op → Bool
  | .updateT i _ => optNonEmpty i.title && optNonEmpty i.agent_type
  | _ => true

/-- A raw getTasks query body: numeric fields as arbitrary rationals, absent
fields as `none`. -/
structure GetTasksQueryRaw where
  status : Option TaskStatus
  agent_type : Option String
  limit : Option ℚ
  offset : Option ℚ
deriving DecidableEq, Repr

/-- A raw getChatMessages query body. -/
structure GetChatMessagesQueryRaw where
  task_id : Int
  limit : Option ℚ
  offset : Option ℚ
deriving DecidableEq, Repr

/-- The limit field validation: `z.number().int().positive().max(100).default(50)`. -/
def parseLimit : Option ℚ → Except String Nat
  | none => .ok 50
  | some x =>
    if x.den ≠ 1 then .error "Expected integer, received float"
    else if x ≤ 0 then .error "Number must be greater than 0"
    else if 100 < x then .error "Number must be less than or equal to 100"
    else .ok x.num.toNat

/-- The offset field validation: `z.number().int().nonnegative().default(0)`. -/
def parseOffset : Option ℚ → Except String Nat
  | none => .ok 0
  | some x =>
    if x.den ≠ 1 then .error "Expected integer, received float"
    else if x < 0 then .error "Number must be greater than or equal to 0"
    else .ok x.num.toNat

/-- Validation by `getTasksQuerySchema`. -/
def parseGetTasksQuery (r : GetTasksQueryRaw) : Except String GetTasksQuery :=
  match parseLimit r.limit, parseOffset r.offset with
  | .ok l, .ok o => .ok ⟨r.status, r.agent_type, l, o⟩
  | .error e, _ => .error e
  | .ok _, .error e => .error e

/-- Validation by `getChatMessagesQuerySchema`. -/
def parseGetChatMessagesQuery (r : GetChatMessagesQueryRaw) :
    Except String GetChatMessagesQuery :=
  match parseLimit r.limit, parseOffset r.offset with
  | .ok l, .ok o => .ok ⟨r.task_id, l, o⟩
  | .error e, _ => .error e
  | .ok _, .error e => .error e

/-- The tRPC procedure: `.input(getTasksQuerySchema)` runs before the handler,
so an invalid body never reaches it. -/
def routeGetTasks (r : GetTasksQueryRaw) (s : Store) : Except String (List Task) × Store :=
  match parseGetTasksQuery r with
  | .error e => (.error e, s)
  | .ok q => (.ok (getTasks q s).1, (getTasks q s).2)

/-- The tRPC procedure for getChatMessages. -/
def routeGetChatMessages (r : GetChatMessagesQueryRaw) (s : Store) :
    Except String (List ChatMessage) × Store :=
  match parseGetChatMessagesQuery r with
  | .error e => (.error e, s)
  | .ok q => (.ok (getChatMessages q s).1, (getChatMessages q s).2)

/-- A supplied limit is a positive integer no greater than 100. -/
def limitOk (o : Option ℚ) : Prop := ∀ x, o = some x → x.den = 1 ∧ 0 < x ∧ x ≤ 100

/-- A supplied offset is a non-negative integer. -/
def offsetOk (o : Option ℚ) : Prop := ∀ x, o = some x → x.den = 1 ∧ 0 ≤ x

/-- Concrete task for the C1 counterexample. -/
def c1task : Task := ⟨1, "T", none, .pending, "code-generator", 0, 0⟩

/-- Store holding only `c1task`. -/
def c1store : Store := ⟨[c1task], [], [], 2, 1, 1⟩

/-- A validated query supplying the empty string as the agent_type filter. -/
def c1query : GetTasksQuery := ⟨none, some "", 50, 0⟩

/-- Operation sequence for the C5 counterexample: a valid creation followed by
a validated update that sets title and agent_type to the empty string. -/
def c5ops : List Op :=
  [.createT ⟨"Review PR", none, "code-generator"⟩ 0,
   .updateT ⟨1, some "", none, none, some ""⟩ 1]

/-- The i-th chat message of the C7 pagination example. -/
def c7msg (i : Nat) : ChatMessage := ⟨i, 7, .user, "m", none, i⟩

/-- Store with five chat messages on task 7, timestamps 1..5. -/
def c7store : Store := ⟨[⟨7, "T", none, .pending, "a", 0, 0⟩], [],
  [c7msg 1, c7msg 2, c7msg 3, c7msg 4, c7msg 5], 8, 1, 6⟩

end AgentChat

namespace AgentChat

/-- C10: every read operation (getTasks, getTaskById, getExecutionResults,
getChatMessages) leaves the persisted store exactly as it was. -/
theorem reads_leave_store_unchanged (qt : GetTasksQuery) (id : Int)
    (qe : GetExecutionResultsQuery) (qc : GetChatMessagesQuery) (s : Store) :
    (getTasks qt s).2 = s ∧ (getTaskById id s).2 = s ∧
    (getExecutionResults qe s).2 = s ∧ (getChatMessages qc s).2 = s := by
  refine ⟨rfl, ?_, rfl, rfl⟩
  unfold getTaskById
  cases s.tasks.filter (fun t => t.id == id) <;> rfl

/-- C8: when no task has the requested id, getTaskById and updateTask both
return the typed absence value `none`; both are total functions, so no
exception can be raised. -/
theorem missing_id_returns_none (id : Int) (input : UpdateTaskInput) (now : Nat) (s : Store)
    (h : ∀ t ∈ s.tasks, t.id ≠ id) (hin : input.id = id) :
    (getTaskById id s).1 = none ∧ (updateTask input now s).1 = none := by
  have hf : s.tasks.filter (fun t => t.id == id) = [] := by
    rw [List.filter_eq_nil_iff]
    intro t ht
    simpa using h t ht
  constructor
  · unfold getTaskById
    rw [hf]
  · unfold updateTask
    simp [hin, hf]

theorem missing_id_witness :
    (getTaskById 5 emptyStore).1 = none ∧
    (updateTask ⟨5, none, none, none, none⟩ 0 emptyStore).1 = none :=
  missing_id_returns_none 5 ⟨5, none, none, none, none⟩ 0 emptyStore (by decide) rfl

/-- C6: for any raw createTask request that passes validation — whatever status
value it may carry, since the schema strips it — createTask appends exactly one
task whose status is pending and whose created_at equals updated_at, and
returns that full record with the generated identifier. -/
theorem createTask_forces_pending (req : CreateTaskRequest) (now : Nat) (s : Store)
    (input : CreateTaskInput) (hparse : parseCreateTaskInput req = .ok input) :
    (createTask input now s).1.status = .pending ∧
    (createTask input now s).1.created_at = now ∧
    (createTask input now s).1.updated_at = now ∧
    (createTask input now s).1.created_at = (createTask input now s).1.updated_at ∧
    (createTask input now s).1.id = s.nextTaskId ∧
    (createTask input now s).1.title = req.title ∧
    (createTask input now s).1.description = req.description ∧
    (createTask input now s).1.agent_type = req.agent_type ∧
    (createTask input now s).2.tasks = s.tasks ++ [(createTask input now s).1] ∧
    (createTask input now s).2.executionResults = s.executionResults ∧
    (createTask input now s).2.chatMessages = s.chatMessages ∧
    (createTask input now s).2.nextTaskId = s.nextTaskId + 1 := by
  have hi : input = ⟨req.title, req.description, req.agent_type⟩ := by
    unfold parseCreateTaskInput at hparse
    split at hparse
    · exact absurd hparse (by simp)
    · split at hparse
      · exact absurd hparse (by simp)
      · simpa using hparse.symm
  subst hi
  refine ⟨rfl, rfl, rfl, rfl, rfl, rfl, rfl, rfl, rfl, rfl, rfl, rfl⟩

theorem createTask_forces_pending_witness :
    parseCreateTaskInput ⟨"Review PR", none, "code-generator", some .completed⟩ =
      .ok ⟨"Review PR", none, "code-generator"⟩ ∧
    (createTask ⟨"Review PR", none, "code-generator"⟩ 3 emptyStore).1.status = .pending := by
  refine ⟨rfl, ?_⟩
  exact (createTask_forces_pending ⟨"Review PR", none, "code-generator", some .completed⟩ 3
    emptyStore ⟨"Review PR", none, "code-generator"⟩ rfl).1

/-- C2: createExecutionResult and createChatMessage check that the referenced
task exists: when it does not, they fail with an error naming that task_id and
leave the store untouched; when it does, they append exactly one record and
return it in full, with the generated identifier and the creation timestamp. -/
theorem create_child_checks_task (ei : CreateExecutionResultInput)
    (ci : CreateChatMessageInput) (now : Nat) (s : Store) :
    ((∀ t ∈ s.tasks, t.id ≠ ei.task_id) →
      createExecutionResult ei now s =
        (.error ("Task with id " ++ toString ei.task_id ++ " does not exist"), s)) ∧
    ((∃ t ∈ s.tasks, t.id = ei.task_id) →
      ∃ r, createExecutionResult ei now s =
          (.ok r, { s with executionResults := s.executionResults ++ [r],
                           nextExecutionResultId := s.nextExecutionResultId + 1 }) ∧
        r.id = s.nextExecutionResultId ∧ r.task_id = ei.task_id ∧ r.content = ei.content ∧
        r.content_type = ei.content_type ∧ r.execution_time_ms = ei.execution_time_ms ∧
        r.status = ei.status ∧ r.error_message = ei.error_message ∧ r.created_at = now) ∧
    ((∀ t ∈ s.tasks, t.id ≠ ci.task_id) →
      createChatMessage ci now s =
        (.error ("Task with id " ++ toString ci.task_id ++ " not found"), s)) ∧
    ((∃ t ∈ s.tasks, t.id = ci.task_id) →
      ∃ m, createChatMessage ci now s =
          (.ok m, { s with chatMessages := s.chatMessages ++ [m],
                           nextChatMessageId := s.nextChatMessageId + 1 }) ∧
        m.id = s.nextChatMessageId ∧ m.task_id = ci.task_id ∧ m.role = ci.role ∧
        m.content = ci.content ∧ m.agent_name = ci.agent_name ∧ m.timestamp = now) := by
  refine ⟨?_, ?_, ?_, ?_⟩
  · intro h
    have hf : s.tasks.filter (fun t => t.id == ei.task_id) = [] := by
      rw [List.filter_eq_nil_iff]; intro t ht; simpa using h t ht
    unfold createExecutionResult
    rw [hf]
    rfl
  · rintro ⟨t, ht, hid⟩
    have hne : ¬ (s.tasks.filter (fun t => t.id == ei.task_id)).isEmpty = true := by
      simp only [List.isEmpty_iff, List.filter_eq_nil_iff, not_forall]
      exact ⟨t, ht, by simp [hid]⟩
    refine ⟨{ id := s.nextExecutionResultId, task_id := ei.task_id, content := ei.content,
              content_type := ei.content_type, execution_time_ms := ei.execution_time_ms,
              status := ei.status, error_message := ei.error_message, created_at := now },
            ?_, rfl, rfl, rfl, rfl, rfl, rfl, rfl, rfl⟩
    unfold createExecutionResult
    rw [if_neg hne]
  · intro h
    have hf : s.tasks.filter (fun t => t.id == ci.task_id) = [] := by
      rw [List.filter_eq_nil_iff]; intro t ht; simpa using h t ht
    unfold createChatMessage
    rw [hf]
    rfl
  · rintro ⟨t, ht, hid⟩
    have hne : ¬ (s.tasks.filter (fun t => t.id == ci.task_id)).isEmpty = true := by
      simp only [List.isEmpty_iff, List.filter_eq_nil_iff, not_forall]
      exact ⟨t, ht, by simp [hid]⟩
    refine ⟨{ id := s.nextChatMessageId, task_id := ci.task_id, role := ci.role,
              content := ci.content, agent_name := ci.agent_name, timestamp := now },
            ?_, rfl, rfl, rfl, rfl, rfl, rfl⟩
    unfold createChatMessage
    rw [if_neg hne]

theorem create_child_checks_task_witness :
    createExecutionResult ⟨99999, "done", .text, 120, .success, none⟩ 5 emptyStore =
      (.error "Task with id 99999 does not exist", emptyStore) ∧
    createChatMessage ⟨99999, .user, "please review", none⟩ 5 emptyStore =
      (.error "Task with id 99999 not found", emptyStore) := by
  have h := create_child_checks_task ⟨99999, "done", .text, 120, .success, none⟩
    ⟨99999, .user, "please review", none⟩ 5 emptyStore
  exact ⟨h.1 (by decide), h.2.2.1 (by decide)⟩

end AgentChat

namespace AgentChat

/-- C3: deleteTask returns true exactly when a task with the id exists; on
false the whole store is unchanged; on true the task and every execution
result and chat message referencing it are gone, while every unrelated record
survives and nothing new appears (the model applies the delete and its cascade
as one step, so it is all-or-nothing by construction). -/
theorem deleteTask_cascades (id : Int) (s : Store) :
    ((deleteTask id s).1 = true ↔ ∃ t ∈ s.tasks, t.id = id) ∧
    ((deleteTask id s).1 = false → (deleteTask id s).2 = s) ∧
    ((deleteTask id s).1 = true →
      (∀ t ∈ (deleteTask id s).2.tasks, t.id ≠ id) ∧
      (∀ r ∈ (deleteTask id s).2.executionResults, r.task_id ≠ id) ∧
      (∀ m ∈ (deleteTask id s).2.chatMessages, m.task_id ≠ id)) ∧
    (∀ t ∈ s.tasks, t.id ≠ id → t ∈ (deleteTask id s).2.tasks) ∧
    (∀ r ∈ s.executionResults, r.task_id ≠ id → r ∈ (deleteTask id s).2.executionResults) ∧
    (∀ m ∈ s.chatMessages, m.task_id ≠ id → m ∈ (deleteTask id s).2.chatMessages) ∧
    (∀ t, t ∈ (deleteTask id s).2.tasks → t ∈ s.tasks) ∧
    (∀ r, r ∈ (deleteTask id s).2.executionResults → r ∈ s.executionResults) ∧
    (∀ m, m ∈ (deleteTask id s).2.chatMessages → m ∈ s.chatMessages) := by
  unfold deleteTask
  by_cases h : s.tasks.any (fun t => t.id == id) = true
  · rw [if_pos h]
    simp only [List.any_eq_true, beq_iff_eq] at h
    refine ⟨by simpa using h, by simp, ?_, ?_, ?_, ?_, ?_, ?_, ?_⟩
    · intro _
      refine ⟨?_, ?_, ?_⟩ <;>
        · intro x hx
          have := (List.mem_filter.mp hx).2
          simpa using this
    · intro t ht hne
      exact List.mem_filter.mpr ⟨ht, by simpa using hne⟩
    · intro r hr hne
      exact List.mem_filter.mpr ⟨hr, by simpa using hne⟩
    · intro m hm hne
      exact List.mem_filter.mpr ⟨hm, by simpa using hne⟩
    · intro t ht
      exact (List.mem_filter.mp ht).1
    · intro r hr
      exact (List.mem_filter.mp hr).1
    · intro m hm
      exact (List.mem_filter.mp hm).1
  · rw [if_neg h]
    simp only [List.any_eq_true, beq_iff_eq, not_exists] at h
    push_neg at h
    refine ⟨by simpa using h, fun _ => rfl, by simp, ?_, ?_, ?_, ?_, ?_, ?_⟩
    · exact fun t ht _ => ht
    · exact fun r hr _ => hr
    · exact fun m hm _ => hm
    · exact fun t ht => ht
    · exact fun r hr => hr
    · exact fun m hm => hm

theorem deleteTask_cascades_witness :
    (deleteTask 1 ⟨[⟨1, "T", none, .pending, "a", 0, 0⟩],
        [⟨1, 1, "c", .text, 0, .success, none, 0⟩],
        [⟨1, 1, .user, "m", none, 0⟩], 2, 2, 2⟩).1 = true ∧
    (deleteTask 7 emptyStore).2 = emptyStore := by
  have h1 := deleteTask_cascades 1 ⟨[⟨1, "T", none, .pending, "a", 0, 0⟩],
    [⟨1, 1, "c", .text, 0, .success, none, 0⟩], [⟨1, 1, .user, "m", none, 0⟩], 2, 2, 2⟩
  have h2 := deleteTask_cascades 7 emptyStore
  exact ⟨h1.1.mpr ⟨⟨1, "T", none, .pending, "a", 0, 0⟩, by decide, rfl⟩, h2.2.1 (by decide)⟩

/-- C4: when a task with the input id exists (and the clock moved on since its
last update, as the real clock does), updateTask returns the updated record:
exactly the present fields change, a present null description clears the
description, created_at is untouched, and updated_at becomes `now`, strictly
greater than before — even when no field beyond the id is supplied; the same
record is persisted. -/
theorem updateTask_partial_fields (input : UpdateTaskInput) (now : Nat) (s : Store) (t : Task)
    (hfind : (s.tasks.filter (fun x => x.id == input.id)).head? = some t)
    (hclock : t.updated_at < now) :
    ∃ u, (updateTask input now s).1 = some u ∧
      u.id = t.id ∧
      u.title = (match input.title with | some v => v | none => t.title) ∧
      u.status = (match input.status with | some v => v | none => t.status) ∧
      u.agent_type = (match input.agent_type with | some v => v | none => t.agent_type) ∧
      (input.description = none → u.description = t.description) ∧
      (input.description = some none → u.description = none) ∧
      (∀ v, input.description = some (some v) → u.description = some v) ∧
      u.created_at = t.created_at ∧
      u.updated_at = now ∧
      t.updated_at < u.updated_at ∧
      u ∈ (updateTask input now s).2.tasks := by
  refine ⟨applyTaskUpdate input now t, ?_, rfl, ?_, ?_, ?_, ?_, ?_, ?_, rfl, rfl, hclock, ?_⟩
  · unfold updateTask
    simp only [List.head?_map, hfind]
    rfl
  · cases h : input.title <;> simp [applyTaskUpdate, h]
  · cases h : input.status <;> simp [applyTaskUpdate, h]
  · cases h : input.agent_type <;> simp [applyTaskUpdate, h]
  · intro h
    simp [applyTaskUpdate, h]
  · intro h
    simp [applyTaskUpdate, h]
  · intro v h
    simp [applyTaskUpdate, h]
  · have hmem : t ∈ s.tasks ∧ (t.id == input.id) = true := by
      have hmf : t ∈ s.tasks.filter (fun x => x.id == input.id) := by
        cases hl : s.tasks.filter (fun x => x.id == input.id) with
        | nil => rw [hl] at hfind; simp at hfind
        | cons a l => rw [hl] at hfind; simp at hfind; simp [hl, hfind]
      exact ⟨(List.mem_filter.mp hmf).1, (List.mem_filter.mp hmf).2⟩
    unfold updateTask
    simp only []
    refine List.mem_map.mpr ⟨t, hmem.1, ?_⟩
    rw [if_pos hmem.2]

theorem updateTask_partial_fields_witness :
    (updateTask ⟨1, none, some none, some .running, none⟩ 9
        ⟨[⟨1, "T", some "d", .pending, "a", 2, 2⟩], [], [], 2, 1, 1⟩).1 =
      some ⟨1, "T", none, .running, "a", 2, 9⟩ := by
  obtain ⟨u, h1, h2, h3, h4, h5, _, h7, _, h9, h10, _, _⟩ :=
    updateTask_partial_fields ⟨1, none, some none, some .running, none⟩ 9
      ⟨[⟨1, "T", some "d", .pending, "a", 2, 2⟩], [], [], 2, 1, 1⟩
      ⟨1, "T", some "d", .pending, "a", 2, 2⟩ (by decide) (by decide)
  rw [h1]
  congr 1
  cases u
  simp_all

end AgentChat

namespace AgentChat

theorem conditions_all_eq (q : GetTasksQuery) (t : Task) :
    (taskConditions q).all (fun c => c t) = matchesEffectiveFilters q t := by
  unfold taskConditions matchesEffectiveFilters
  cases q.status with
  | none =>
    cases q.agent_type with
    | none => rfl
    | some a =>
      by_cases ha : a == "" <;> simp [ha]
  | some st =>
    cases q.agent_type with
    | none => simp
    | some a =>
      by_cases ha : a == "" <;> simp [ha]

theorem getTasks_rows (q : GetTasksQuery) (s : Store) :
    (getTasks q s).1 = ((List.insertionSort createdDesc
        (s.tasks.filter (matchesEffectiveFilters q))).drop q.offset).take q.limit := by
  unfold getTasks
  by_cases h : (taskConditions q).isEmpty = true
  · simp only [h, if_true]
    have he : s.tasks.filter (matchesEffectiveFilters q) = s.tasks := by
      rw [List.filter_eq_self]
      intro t ht
      rw [← conditions_all_eq]
      rw [List.isEmpty_iff.mp h]
      rfl
    rw [he]
  · simp only [h, if_false]
    have he : s.tasks.filter (fun t => (taskConditions q).all (fun c => c t)) =
        s.tasks.filter (matchesEffectiveFilters q) :=
      List.filter_congr (fun t _ => conditions_all_eq q t)
    rw [he]
    simp

/-- C1 amended: getTasks returns some ordering of exactly the tasks passing
the effective filters — status when given, agent_type when given and
non-empty, combined by AND — sorted by created_at descending, with offset and
limit applied after ordering; it returns [] (and never fails) when nothing
matches. A supplied empty-string agent_type filter is dropped (JS truthiness),
which is the sole deviation from the claim as stated. -/
theorem getTasks_filters_sorts_paginates (q : GetTasksQuery) (s : Store) :
    (∃ l, l.Perm (s.tasks.filter (matchesEffectiveFilters q)) ∧
       List.Sorted createdDesc l ∧
       (getTasks q s).1 = (l.drop q.offset).take q.limit) ∧
    (∀ t ∈ (getTasks q s).1, matchesEffectiveFilters q t = true) ∧
    ((∀ t ∈ s.tasks, matchesEffectiveFilters q t = false) → (getTasks q s).1 = []) := by
  refine ⟨⟨List.insertionSort createdDesc (s.tasks.filter (matchesEffectiveFilters q)),
          List.perm_insertionSort _ _, List.sorted_insertionSort _ _, getTasks_rows q s⟩,
         ?_, ?_⟩
  · intro t ht
    rw [getTasks_rows] at ht
    have h1 : t ∈ List.insertionSort createdDesc (s.tasks.filter (matchesEffectiveFilters q)) :=
      List.mem_of_mem_drop (List.mem_of_mem_take ht)
    have h2 : t ∈ s.tasks.filter (matchesEffectiveFilters q) :=
      (List.perm_insertionSort createdDesc _).mem_iff.mp h1
    exact (List.mem_filter.mp h2).2
  · intro h
    have he : s.tasks.filter (matchesEffectiveFilters q) = [] :=
      List.filter_eq_nil_iff.mpr (fun a ha => by simp [h a ha])
    rw [getTasks_rows, he]
    simp

theorem getTasks_filters_witness :
    (getTasks ⟨some .running, none, 50, 0⟩ c1store).1 = [] :=
  (getTasks_filters_sorts_paginates ⟨some .running, none, 50, 0⟩ c1store).2.2 (by decide)

/-- C1 counterexample: the validated query `{agent_type: ""}` is a supplied
filter, yet getTasks returns a task whose agent_type is "code-generator",
which does not match that filter — the claim as stated fails. -/
theorem getTasks_empty_agent_filter_ignored :
    (getTasks c1query c1store).1 = [c1task] ∧
    matchesSpecFilters c1query c1task = false := by
  constructor
  · decide
  · decide

/-- C7: getChatMessages returns some ordering of exactly the messages with the
queried task_id, sorted by timestamp ascending, with offset and limit applied
after ordering, and [] when none exist. -/
theorem getChatMessages_sorted_paginated (q : GetChatMessagesQuery) (s : Store) :
    (∃ l, l.Perm (s.chatMessages.filter (fun m => m.task_id == q.task_id)) ∧
       List.Sorted tsAsc l ∧
       (getChatMessages q s).1 = (l.drop q.offset).take q.limit) ∧
    (∀ m ∈ (getChatMessages q s).1, m.task_id = q.task_id) ∧
    ((∀ m ∈ s.chatMessages, m.task_id ≠ q.task_id) → (getChatMessages q s).1 = []) := by
  refine ⟨⟨List.insertionSort tsAsc (s.chatMessages.filter (fun m => m.task_id == q.task_id)),
          List.perm_insertionSort _ _, List.sorted_insertionSort _ _, rfl⟩, ?_, ?_⟩
  · intro m hm
    unfold getChatMessages at hm
    have h1 : m ∈ List.insertionSort tsAsc
        (s.chatMessages.filter (fun x => x.task_id == q.task_id)) :=
      List.mem_of_mem_drop (List.mem_of_mem_take hm)
    have h2 := (List.perm_insertionSort tsAsc _).mem_iff.mp h1
    simpa using (List.mem_filter.mp h2).2
  · intro h
    have he : s.chatMessages.filter (fun m => m.task_id == q.task_id) = [] :=
      List.filter_eq_nil_iff.mpr (fun a ha => by simpa using h a ha)
    unfold getChatMessages
    rw [he]
    simp

theorem getChatMessages_pagination_example :
    (getChatMessages ⟨7, 2, 2⟩ c7store).1 = [c7msg 3, c7msg 4] ∧
    (getChatMessages ⟨9, 50, 0⟩ c7store).1 = [] :=
  ⟨by decide, (getChatMessages_sorted_paginated ⟨9, 50, 0⟩ c7store).2.2 (by decide)⟩

end AgentChat

namespace AgentChat

theorem applyTaskUpdate_nonEmpty (i : UpdateTaskInput) (n : Nat) (x : Task)
    (hx : 1 ≤ x.title.length ∧ 1 ≤ x.agent_type.length)
    (hu : optNonEmpty i.title = true ∧ optNonEmpty i.agent_type = true) :
    1 ≤ (applyTaskUpdate i n x).title.length ∧
    1 ≤ (applyTaskUpdate i n x).agent_type.length := by
  constructor
  · cases h : i.title with
    | none => simpa [applyTaskUpdate, h] using hx.1
    | some v =>
      have hv := hu.1
      rw [h] at hv
      simp only [optNonEmpty, decide_eq_true_eq] at hv
      simpa [applyTaskUpdate, h] using hv
  · cases h : i.agent_type with
    | none => simpa [applyTaskUpdate, h] using hx.2
    | some v =>
      have hv := hu.2
      rw [h] at hv
      simp only [optNonEmpty, decide_eq_true_eq] at hv
      simpa [applyTaskUpdate, h] using hv

theorem applyOp_preserves_nonEmpty (op : Op) (s : Store)
    (hs : ∀ t ∈ s.tasks, 1 ≤ t.title.length ∧ 1 ≤ t.agent_type.length)
    (hv : opValidated op = true) (hu : opKeepsNonEmpty op = true) :
    ∀ t ∈ (applyOp s op).tasks, 1 ≤ t.title.length ∧ 1 ≤ t.agent_type.length := by
  cases op with
  | createT i n =>
    intro t ht
    simp only [applyOp, createTask] at ht
    rcases List.mem_append.mp ht with h | h
    · exact hs t h
    · simp only [List.mem_singleton] at h
      subst h
      simp only [opValidated, Bool.and_eq_true, decide_eq_true_eq] at hv
      exact hv
  | updateT i n =>
    intro t ht
    simp only [applyOp, updateTask] at ht
    rcases List.mem_map.mp ht with ⟨x, hx, hfx⟩
    simp only [opKeepsNonEmpty, Bool.and_eq_true] at hu
    by_cases hid : (x.id == i.id) = true
    · rw [if_pos hid] at hfx
      subst hfx
      exact applyTaskUpdate_nonEmpty i n x (hs x hx) hu
    · rw [if_neg hid] at hfx
      subst hfx
      exact hs x hx
  | deleteT id =>
    intro t ht
    simp only [applyOp, deleteTask] at ht
    by_cases h : s.tasks.any (fun x => x.id == id) = true
    · rw [if_pos h] at ht
      exact hs t (List.mem_filter.mp ht).1
    · rw [if_neg h] at ht
      exact hs t ht
  | createER i n =>
    intro t ht
    have he : (createExecutionResult i n s).2.tasks = s.tasks := by
      unfold createExecutionResult
      split <;> rfl
    simp only [applyOp, he] at ht
    exact hs t ht
  | createCM i n =>
    intro t ht
    have he : (createChatMessage i n s).2.tasks = s.tasks := by
      unfold createChatMessage
      split <;> rfl
    simp only [applyOp, he] at ht
    exact hs t ht

theorem applyOps_preserve_nonEmpty (ops : List Op) (s : Store)
    (hs : ∀ t ∈ s.tasks, 1 ≤ t.title.length ∧ 1 ≤ t.agent_type.length)
    (hval : ∀ op ∈ ops, opValidated op = true)
    (hupd : ∀ op ∈ ops, opKeepsNonEmpty op = true) :
    ∀ t ∈ (applyOps ops s).tasks, 1 ≤ t.title.length ∧ 1 ≤ t.agent_type.length := by
  induction ops generalizing s with
  | nil => exact hs
  | cons op rest ih =>
    have h1 := applyOp_preserves_nonEmpty op s hs (hval op (List.mem_cons_self op rest))
      (hupd op (List.mem_cons_self op rest))
    exact ih (applyOp s op) h1
      (fun o ho => hval o (List.mem_cons_of_mem _ ho))
      (fun o ho => hupd o (List.mem_cons_of_mem _ ho))

/-- C5 amended: in every store reachable from the empty store by validated
operations, every task has a non-empty title and agent_type — provided no
update operation supplied an empty title or agent_type, which the validated
update schema does allow (no minimum length); that permission is the sole
deviation from the claim as stated. -/
theorem reachable_tasks_nonEmpty_fields (ops : List Op)
    (hval : ∀ op ∈ ops, opValidated op = true)
    (hupd : ∀ op ∈ ops, opKeepsNonEmpty op = true) :
    ∀ t ∈ (applyOps ops emptyStore).tasks,
      1 ≤ t.title.length ∧ 1 ≤ t.agent_type.length :=
  applyOps_preserve_nonEmpty ops emptyStore (by simp [emptyStore]) hval hupd

theorem reachable_tasks_nonEmpty_fields_witness :
    1 ≤ (applyOps [.createT ⟨"Review PR", none, "code-generator"⟩ 0] emptyStore).tasks.length ∧
    ((applyOps [.createT ⟨"Review PR", none, "code-generator"⟩ 0] emptyStore).tasks.all
       (fun t => decide (1 ≤ t.title.length) && decide (1 ≤ t.agent_type.length))) = true := by
  refine ⟨by decide, ?_⟩
  rw [List.all_eq_true]
  intro t ht
  have h := reachable_tasks_nonEmpty_fields [.createT ⟨"Review PR", none, "code-generator"⟩ 0]
    (by decide) (by decide) t ht
  simp [h.1, h.2]

/-- C5 counterexample: a validated createTask followed by a validated
updateTask (its schema has no minimum lengths) reaches a store whose only
task has an empty title and an empty agent_type. -/
theorem update_can_empty_title :
    (c5ops.all opValidated = true) ∧
    ((applyOps c5ops emptyStore).tasks.any
       (fun t => (t.title == "") || (t.agent_type == ""))) = true := by
  constructor
  · decide
  · decide

end AgentChat

namespace AgentChat

theorem parseLimit_char (o : Option ℚ) :
    ((∃ n, parseLimit o = .ok n) ↔ limitOk o) ∧
    (∀ n, parseLimit o = .ok n →
      (o = none → n = 50) ∧ (∀ x, o = some x → (n : ℚ) = x)) := by
  cases o with
  | none =>
    constructor
    · constructor
      · intro _ x hx
        cases hx
      · intro _
        exact ⟨50, rfl⟩
    · intro n hn
      constructor
      · intro _
        have h50 : parseLimit none = Except.ok n := hn
        simp only [parseLimit] at h50
        simpa using h50.symm
      · intro x hx
        cases hx
  | some x =>
    by_cases h1 : x.den = 1
    · by_cases h2 : 0 < x
      · by_cases h3 : x ≤ 100
        · have hval : parseLimit (some x) = .ok x.num.toNat := by
            simp only [parseLimit]
            rw [if_neg (by simp [h1]), if_neg (not_le.mpr h2), if_neg (not_lt.mpr h3)]
          constructor
          · constructor
            · intro _ y hy
              cases hy
              exact ⟨h1, h2, h3⟩
            · intro _
              exact ⟨x.num.toNat, hval⟩
          · intro n hn
            constructor
            · intro hc
              cases hc
            · intro y hy
              cases hy
              rw [hval] at hn
              have hnn : n = x.num.toNat := by simpa using hn.symm
              subst hnn
              have hnum : (0 : ℤ) ≤ x.num := Rat.num_nonneg.mpr (le_of_lt h2)
              have hcast : ((x.num.toNat : ℤ) : ℚ) = (x.num : ℚ) := by
                rw [Int.toNat_of_nonneg hnum]
              calc ((x.num.toNat : ℕ) : ℚ) = ((x.num.toNat : ℤ) : ℚ) := by push_cast; ring
                _ = (x.num : ℚ) := hcast
                _ = x := (Rat.den_eq_one_iff x).mp h1
        · have hval : parseLimit (some x) =
              .error "Number must be less than or equal to 100" := by
            simp only [parseLimit]
            rw [if_neg (by simp [h1]), if_neg (not_le.mpr h2), if_pos (not_le.mp h3)]
          constructor
          · constructor
            · rintro ⟨n, hn⟩
              rw [hval] at hn
              simp at hn
            · intro hok
              exact absurd (hok x rfl).2.2 h3
          · intro n hn
            rw [hval] at hn
            simp at hn
      · have hval : parseLimit (some x) = .error "Number must be greater than 0" := by
          simp only [parseLimit]
          rw [if_neg (by simp [h1]), if_pos (not_lt.mp h2)]
        constructor
        · constructor
          · rintro ⟨n, hn⟩
            rw [hval] at hn
            simp at hn
          · intro hok
            exact absurd (hok x rfl).2.1 h2
        · intro n hn
          rw [hval] at hn
          simp at hn
    · have hval : parseLimit (some x) = .error "Expected integer, received float" := by
        simp only [parseLimit]
        rw [if_pos h1]
      constructor
      · constructor
        · rintro ⟨n, hn⟩
          rw [hval] at hn
          simp at hn
        · intro hok
          exact absurd (hok x rfl).1 h1
      · intro n hn
        rw [hval] at hn
        simp at hn

theorem parseOffset_char (o : Option ℚ) :
    ((∃ n, parseOffset o = .ok n) ↔ offsetOk o) ∧
    (∀ n, parseOffset o = .ok n →
      (o = none → n = 0) ∧ (∀ x, o = some x → (n : ℚ) = x)) := by
  cases o with
  | none =>
    constructor
    · constructor
      · intro _ x hx
        cases hx
      · intro _
        exact ⟨0, rfl⟩
    · intro n hn
      constructor
      · intro _
        have h0 : parseOffset none = Except.ok n := hn
        simp only [parseOffset] at h0
        simpa using h0.symm
      · intro x hx
        cases hx
  | some x =>
    by_cases h1 : x.den = 1
    · by_cases h2 : 0 ≤ x
      · have hval : parseOffset (some x) = .ok x.num.toNat := by
          simp only [parseOffset]
          rw [if_neg (by simp [h1]), if_neg (not_lt.mpr h2)]
        constructor
        · constructor
          · intro _ y hy
            cases hy
            exact ⟨h1, h2⟩
          · intro _
            exact ⟨x.num.toNat, hval⟩
        · intro n hn
          constructor
          · intro hc
            cases hc
          · intro y hy
            cases hy
            rw [hval] at hn
            have hnn : n = x.num.toNat := by simpa using hn.symm
            subst hnn
            have hnum : (0 : ℤ) ≤ x.num := Rat.num_nonneg.mpr h2
            have hcast : ((x.num.toNat : ℤ) : ℚ) = (x.num : ℚ) := by
              rw [Int.toNat_of_nonneg hnum]
            calc ((x.num.toNat : ℕ) : ℚ) = ((x.num.toNat : ℤ) : ℚ) := by push_cast; ring
              _ = (x.num : ℚ) := hcast
              _ = x := (Rat.den_eq_one_iff x).mp h1
      · have hval : parseOffset (some x) =
            .error "Number must be greater than or equal to 0" := by
          simp only [parseOffset]
          rw [if_neg (by simp [h1]), if_pos (not_le.mp h2)]
        constructor
        · constructor
          · rintro ⟨n, hn⟩
            rw [hval] at hn
            simp at hn
          · intro hok
            exact absurd (hok x rfl).2 h2
        · intro n hn
          rw [hval] at hn
          simp at hn
    · have hval : parseOffset (some x) = .error "Expected integer, received float" := by
        simp only [parseOffset]
        rw [if_pos h1]
      constructor
      · constructor
        · rintro ⟨n, hn⟩
          rw [hval] at hn
          simp at hn
        · intro hok
          exact absurd (hok x rfl).1 h1
      · intro n hn
        rw [hval] at hn
        simp at hn


theorem parseGetTasksQuery_ok_elim (r : GetTasksQueryRaw) (q : GetTasksQuery)
    (h : parseGetTasksQuery r = .ok q) :
    q.status = r.status ∧ q.agent_type = r.agent_type ∧
    parseLimit r.limit = .ok q.limit ∧ parseOffset r.offset = .ok q.offset := by
  unfold parseGetTasksQuery at h
  cases hl : parseLimit r.limit with
  | error e =>
    rw [hl] at h
    simp at h
  | ok l =>
    cases ho : parseOffset r.offset with
    | error e =>
      rw [hl, ho] at h
      simp at h
    | ok o =>
      rw [hl, ho] at h
      have h2 : (⟨r.status, r.agent_type, l, o⟩ : GetTasksQuery) = q := by simpa using h
      subst h2
      exact ⟨rfl, rfl, rfl, rfl⟩

theorem parseGetChatMessagesQuery_ok_elim (r : GetChatMessagesQueryRaw)
    (q : GetChatMessagesQuery) (h : parseGetChatMessagesQuery r = .ok q) :
    q.task_id = r.task_id ∧
    parseLimit r.limit = .ok q.limit ∧ parseOffset r.offset = .ok q.offset := by
  unfold parseGetChatMessagesQuery at h
  cases hl : parseLimit r.limit with
  | error e =>
    rw [hl] at h
    simp at h
  | ok l =>
    cases ho : parseOffset r.offset with
    | error e =>
      rw [hl, ho] at h
      simp at h
    | ok o =>
      rw [hl, ho] at h
      have h2 : (⟨r.task_id, l, o⟩ : GetChatMessagesQuery) = q := by simpa using h
      subst h2
      exact ⟨rfl, rfl, rfl⟩

/-- C9: a raw getTasks or getChatMessages query passes validation exactly when
any supplied limit is a positive integer at most 100 and any supplied offset a
non-negative integer; a passing query keeps its fields, with limit defaulting
to 50 and offset to 0 when absent; a failing query is answered with a
validation error by the router, and the handler (hence the store) is never
touched. -/
theorem query_pagination_validated (rt : GetTasksQueryRaw) (rc : GetChatMessagesQueryRaw)
    (s : Store) :
    ((∃ q, parseGetTasksQuery rt = .ok q) ↔ limitOk rt.limit ∧ offsetOk rt.offset) ∧
    ((∃ q, parseGetChatMessagesQuery rc = .ok q) ↔ limitOk rc.limit ∧ offsetOk rc.offset) ∧
    (∀ q, parseGetTasksQuery rt = .ok q →
      q.status = rt.status ∧ q.agent_type = rt.agent_type ∧
      (rt.limit = none → q.limit = 50) ∧ (rt.offset = none → q.offset = 0) ∧
      (∀ x, rt.limit = some x → (q.limit : ℚ) = x) ∧
      (∀ x, rt.offset = some x → (q.offset : ℚ) = x)) ∧
    (∀ q, parseGetChatMessagesQuery rc = .ok q →
      q.task_id = rc.task_id ∧
      (rc.limit = none → q.limit = 50) ∧ (rc.offset = none → q.offset = 0) ∧
      (∀ x, rc.limit = some x → (q.limit : ℚ) = x) ∧
      (∀ x, rc.offset = some x → (q.offset : ℚ) = x)) ∧
    (¬(limitOk rt.limit ∧ offsetOk rt.offset) →
      ∃ e, routeGetTasks rt s = (.error e, s)) ∧
    (¬(limitOk rc.limit ∧ offsetOk rc.offset) →
      ∃ e, routeGetChatMessages rc s = (.error e, s)) := by
  have hiffT : (∃ q, parseGetTasksQuery rt = .ok q) ↔ limitOk rt.limit ∧ offsetOk rt.offset := by
    constructor
    · rintro ⟨q, hq⟩
      obtain ⟨_, _, hl, ho⟩ := parseGetTasksQuery_ok_elim rt q hq
      exact ⟨(parseLimit_char rt.limit).1.mp ⟨q.limit, hl⟩,
             (parseOffset_char rt.offset).1.mp ⟨q.offset, ho⟩⟩
    · rintro ⟨hl, ho⟩
      obtain ⟨l, hl'⟩ := (parseLimit_char rt.limit).1.mpr hl
      obtain ⟨o, ho'⟩ := (parseOffset_char rt.offset).1.mpr ho
      refine ⟨⟨rt.status, rt.agent_type, l, o⟩, ?_⟩
      unfold parseGetTasksQuery
      rw [hl', ho']
  have hiffC : (∃ q, parseGetChatMessagesQuery rc = .ok q) ↔
      limitOk rc.limit ∧ offsetOk rc.offset := by
    constructor
    · rintro ⟨q, hq⟩
      obtain ⟨_, hl, ho⟩ := parseGetChatMessagesQuery_ok_elim rc q hq
      exact ⟨(parseLimit_char rc.limit).1.mp ⟨q.limit, hl⟩,
             (parseOffset_char rc.offset).1.mp ⟨q.offset, ho⟩⟩
    · rintro ⟨hl, ho⟩
      obtain ⟨l, hl'⟩ := (parseLimit_char rc.limit).1.mpr hl
      obtain ⟨o, ho'⟩ := (parseOffset_char rc.offset).1.mpr ho
      refine ⟨⟨rc.task_id, l, o⟩, ?_⟩
      unfold parseGetChatMessagesQuery
      rw [hl', ho']
  refine ⟨hiffT, hiffC, ?_, ?_, ?_, ?_⟩
  · intro q hq
    obtain ⟨hs, ha, hl, ho⟩ := parseGetTasksQuery_ok_elim rt q hq
    have hlc := (parseLimit_char rt.limit).2 q.limit hl
    have hoc := (parseOffset_char rt.offset).2 q.offset ho
    exact ⟨hs, ha, hlc.1, hoc.1, hlc.2, hoc.2⟩
  · intro q hq
    obtain ⟨ht, hl, ho⟩ := parseGetChatMessagesQuery_ok_elim rc q hq
    have hlc := (parseLimit_char rc.limit).2 q.limit hl
    have hoc := (parseOffset_char rc.offset).2 q.offset ho
    exact ⟨ht, hlc.1, hoc.1, hlc.2, hoc.2⟩
  · intro h
    cases hp : parseGetTasksQuery rt with
    | ok q => exact absurd (hiffT.mp ⟨q, hp⟩) h
    | error e =>
      refine ⟨e, ?_⟩
      unfold routeGetTasks
      rw [hp]
  · intro h
    cases hp : parseGetChatMessagesQuery rc with
    | ok q => exact absurd (hiffC.mp ⟨q, hp⟩) h
    | error e =>
      refine ⟨e, ?_⟩
      unfold routeGetChatMessages
      rw [hp]

theorem query_pagination_validated_witness :
    (∃ e, routeGetTasks ⟨none, none, some 101, none⟩ emptyStore = (.error e, emptyStore)) ∧
    (∃ e, routeGetChatMessages ⟨1, some (1/2), none⟩ emptyStore = (.error e, emptyStore)) ∧
    parseGetTasksQuery ⟨none, none, none, none⟩ = .ok ⟨none, none, 50, 0⟩ := by
  have h := query_pagination_validated ⟨none, none, some 101, none⟩ ⟨1, some (1/2), none⟩
    emptyStore
  refine ⟨h.2.2.2.2.1 ?_, h.2.2.2.2.2 ?_, rfl⟩
  · rintro ⟨hl, -⟩
    have := (hl 101 rfl).2.2
    norm_num at this
  · rintro ⟨hl, -⟩
    have := (hl (1/2) rfl).1
    norm_num at this

end AgentChat
